import Mathlib

/-!
Verification development for the jet sharded message-broker control plane.

Shallow embedding of the two source components the claims are about:

1. The replicated state machine in the FSM source file (nodeState with Apply,
   CreateTopic, CreatePartition, Publish, Snapshot, Restore).  The FSM state is
   the topic table (a sync.Map keyed by topic name).  Node-local effects that the
   source consults (os.Mkdir success, the murmur3/FormatUint library hash, the
   hashring GetNode library lookup) are made explicit as an Env record, since they
   are inputs the code reads but that are not part of the committed command.

2. The membership reconciler in cluster/application.go (onPeerUpdate and
   onFailedHeartbeat).  The haxmap member map is modelled as an association list
   with upsert/delete semantics, and each handler returns, besides the updated
   local map, the ordered list of externally visible actions it performs (local
   map writes, raft configuration calls, replicated command submissions, error
   logs), so ordering properties between local mutation and replicated commit can
   be stated.  Results of the external raft calls are explicit boolean inputs.
-/

namespace Jet

/-! ## Generic map model: sync.Map / haxmap as an association list -/

/-- Lookup (sync.Map.Load / haxmap.Get): the first entry with the key. -/
def mapLoad {α : Type} (k : String) : List (String × α) → Option α
  | [] => none
  | p :: rest => if p.1 = k then some p.2 else mapLoad k rest

/-- Key membership test for the association-list map. -/
def containsKey {α : Type} (k : String) : List (String × α) → Bool
  | [] => false
  | p :: rest => if p.1 = k then true else containsKey k rest

/-- Upsert (sync.Map.Store / haxmap.Set): replace the existing entry for the key,
or append a new one. -/
def mapStore {α : Type} (k : String) (v : α) (m : List (String × α)) : List (String × α) :=
  if containsKey k m then
    m.map (fun p => if p.1 = k then (k, v) else p)
  else m ++ [(k, v)]

/-- Delete (haxmap.Del): remove the entries with the key; a no-op when absent. -/
def mapDel {α : Type} (k : String) : List (String × α) → List (String × α)
  | [] => []
  | p :: rest => if p.1 = k then mapDel k rest else p :: mapDel k rest

/-- Number of entries stored under a key (a measuring device for idempotence
statements; a hash map holds at most one). -/
def countKey {α : Type} (k : String) : List (String × α) → Nat
  | [] => 0
  | p :: rest => if p.1 = k then countKey k rest + 1 else countKey k rest

theorem mapLoad_eq_none_iff {α : Type} (k : String) (m : List (String × α)) :
    mapLoad k m = none ↔ containsKey k m = false := by
  induction m with
  | nil => simp [mapLoad, containsKey]
  | cons p rest ih =>
    by_cases hp : p.1 = k
    · simp [mapLoad, containsKey, hp]
    · simp [mapLoad, containsKey, hp, ih]

theorem countKey_eq_zero_iff {α : Type} (k : String) (m : List (String × α)) :
    countKey k m = 0 ↔ containsKey k m = false := by
  induction m with
  | nil => simp [countKey, containsKey]
  | cons p rest ih =>
    by_cases hp : p.1 = k
    · simp [countKey, containsKey, hp]
    · simp [countKey, containsKey, hp, ih]

theorem mapDel_eq_self {α : Type} (k : String) (m : List (String × α))
    (h : containsKey k m = false) : mapDel k m = m := by
  induction m with
  | nil => rfl
  | cons p rest ih =>
    by_cases hp : p.1 = k
    · simp [containsKey, hp] at h
    · simp [containsKey, hp] at h
      simp [mapDel, hp, ih h]

theorem mapLoad_map_update {α : Type} (k : String) (v : α) (m : List (String × α))
    (h : containsKey k m = true) :
    mapLoad k (m.map (fun p => if p.1 = k then (k, v) else p)) = some v := by
  induction m with
  | nil => simp [containsKey] at h
  | cons p rest ih =>
    by_cases hp : p.1 = k
    · simp [mapLoad, hp]
    · simp [containsKey, hp] at h
      simp [mapLoad, hp, ih h]

theorem mapLoad_append_self {α : Type} (k : String) (v : α) (m : List (String × α))
    (h : containsKey k m = false) :
    mapLoad k (m ++ [(k, v)]) = some v := by
  induction m with
  | nil => simp [mapLoad]
  | cons p rest ih =>
    by_cases hp : p.1 = k
    · simp [containsKey, hp] at h
    · simp [containsKey, hp] at h
      simp [mapLoad, hp, ih h]

theorem mapLoad_mapStore_self {α : Type} (k : String) (v : α) (m : List (String × α)) :
    mapLoad k (mapStore k v m) = some v := by
  cases hc : containsKey k m with
  | false => simp [mapStore, hc, mapLoad_append_self k v m hc]
  | true => simp [mapStore, hc, mapLoad_map_update k v m hc]

theorem countKey_append_self {α : Type} (k : String) (v : α) (m : List (String × α)) :
    countKey k (m ++ [(k, v)]) = countKey k m + 1 := by
  induction m with
  | nil => simp [countKey]
  | cons p rest ih =>
    by_cases hp : p.1 = k <;> simp [countKey, hp, ih]

theorem countKey_mapStore_absent {α : Type} (k : String) (v : α) (m : List (String × α))
    (h : containsKey k m = false) :
    countKey k (mapStore k v m) = countKey k m + 1 := by
  simp [mapStore, h, countKey_append_self]

/-! ## FSM data model (nodeState, topic, partition) -/

/-- A partition record: partition number, owning topic name, offset counter
(atomic.Uint64, zero-initialized). -/
structure Partition where
  num : Nat
  topicName : String
  offset : Nat
  deriving Repr, DecidableEq

/-- A topic: name, partition list, and the consistent-hash ring.  The serialx
hashring value is represented by the list of ring member identifiers it was built
from (hashring.New receives exactly that list). -/
structure Topic where
  name : String
  partitions : List Partition
  hashRing : List String
  deriving Repr, DecidableEq

/-- The topic table of nodeState: a sync.Map keyed by topic name. -/
abbrev TopicMap := List (String × Topic)

/-- A Go error result of an FSM method (nil is none). -/
abbrev GoErr := String

/-- Node-local inputs that the FSM source consults during an apply, beyond the
committed command itself:

* mkdirOk t — whether os.Mkdir(t, 0755) succeeds on this node's filesystem;
* hashPartition i — the external library value
  strconv.FormatUint(murmur3 hash of i zero bytes, 2) computed in the CreateTopic
  loop (a fixed pure library function, identical on every node);
* getNode ring key — the external library lookup hashRing.GetNode(key)
  (a fixed pure library function of the ring member list and the key). -/
structure Env where
  mkdirOk : String → Bool
  hashPartition : Nat → String
  getNode : List String → String → String

/-- The hardcoded server list declared inside nodeState.CreatePartition. -/
def memcacheServers : List String :=
  ["192.168.0.246:11212", "192.168.0.247:11212", "192.168.0.249:11212"]

/-- nodeState.CreatePartition: builds the partition record with the given number,
topic name and a zero offset.  Its body also declares the hardcoded
memcacheServers list and (in a dead, non-compiling statement) asks an undefined
ring for a storage node, discarding the result; nodeState carries no membership
state the function could consult. -/
def CreatePartition (partitionNum : Nat) (topicName : String) : Partition :=
  { num := partitionNum, topicName := topicName, offset := 0 }

/-- nodeState.CreateTopic: if the topic is already in the table, return nil with
the table unchanged; if os.Mkdir fails, return nil with the table unchanged;
otherwise build the partitions 0..n-1 via CreatePartition, collect the hashed
ring member identifiers, build the ring and store the topic.  Every path returns
nil (no error value is ever produced). -/
def CreateTopic (env : Env) (topics : TopicMap) (reqTopic : String) (reqPartitions : Nat) :
    TopicMap × Option GoErr :=
  match mapLoad reqTopic topics with
  | some _ => (topics, none)
  | none =>
    if env.mkdirOk reqTopic then
      let parts := (List.range reqPartitions).map (fun i => CreatePartition i reqTopic)
      let ringIds := (List.range reqPartitions).map env.hashPartition
      (mapStore reqTopic { name := reqTopic, partitions := parts, hashRing := ringIds } topics,
       none)
    else (topics, none)

/-- nodeState.Publish: load the topic; when absent, return nil (no UnknownTopic
error); when present, resolve each message key on the topic's hash ring with
GetNode and discard the result — no offset is touched and no message is appended;
the table is returned unchanged and the result is nil. -/
def Publish (env : Env) (topics : TopicMap) (reqTopic : String)
    (messages : List (String × String)) : TopicMap × Option GoErr :=
  match mapLoad reqTopic topics with
  | none => (topics, none)
  | some t =>
    let _resolved := messages.map (fun m => env.getNode t.hashRing m.1)
    (topics, none)

/-- The decoded command envelope (pb.Write tagged union). -/
inductive WriteOp
  | publish (topic : String) (messages : List (String × String))
  | createTopic (topic : String) (partitions : Nat)
  | createConsumer
  | consume
  deriving Repr, DecidableEq

/-- The switch statement of nodeState.Apply on a decoded operation: the
Write_Publish, Write_CreateConsumer and Write_Consume cases only break (Publish
is never invoked from Apply); Write_CreateTopic calls CreateTopic. -/
def applySwitch (env : Env) (topics : TopicMap) : WriteOp → TopicMap
  | .publish _ _ => topics
  | .createTopic t n => (CreateTopic env topics t n).1
  | .createConsumer => topics
  | .consume => topics

/-- What one call of nodeState.Apply does to the hosting process. -/
inductive ApplyOutcome
  | fatalLog
  | nilErrorPanic
  | dispatched (topics : TopicMap)
  deriving Repr, DecidableEq

/-- nodeState.Apply on one log entry.  The decoded argument models the result of
proto.Unmarshal on the entry data: Except.error msg when unmarshalling fails with
message msg, Except.ok op when it succeeds.  The source then evaluates
len(err.Error()) != 0: on a decode failure with a nonempty message this calls
log.Fatal (process exit); on a decode success err is the nil error interface and
the Error() method call panics with a nil dereference before the dispatch switch
is ever reached. -/
def Apply (_env : Env) (topics : TopicMap) (decoded : Except GoErr WriteOp) : ApplyOutcome :=
  match decoded with
  | .ok _ => .nilErrorPanic
  | .error msg => if msg.length ≠ 0 then .fatalLog else .dispatched topics

/-- Folding the post-decode dispatch switch of Apply over an ordered command
sequence, from a given topic table. -/
def applySeq (env : Env) (topics : TopicMap) (ops : List WriteOp) : TopicMap :=
  ops.foldl (applySwitch env) topics

/-- nodeState.Snapshot: the body is commented out and the function returns
(nil, nil) — no snapshot data is produced for any state. -/
def Snapshot (_topics : TopicMap) : Option Unit := none

/-- nodeState.Restore: the body is commented out; nothing is read from the
snapshot source and the fresh instance is left as it is. -/
def Restore (fresh : TopicMap) (_snap : Option Unit) : TopicMap := fresh

/-! ## Membership reconciler (cluster/application.go) -/

/-- MemberInfo: node id, locally derived leader flag, network address. -/
structure MemberInfo where
  nodeId : String
  isLeader : Bool
  address : String
  deriving Repr, DecidableEq

/-- The per-shard member map (haxmap of node id to MemberInfo). -/
abbrev MemberMap := List (String × MemberInfo)

/-- Externally visible actions a reconciler handler performs, in program order:
warn log about an unreachable peer, Raft.RemoveServer configuration call, local
member-map delete, local member-map write, replicated RemoveMember submission
(RemovePeer), replicated AddMember submission (ReplicatePeer), error log after a
failed submission. -/
inductive RecAction
  | warnUnreachable (peerId : String)
  | removeServer (peerId : String)
  | delMember (peerId : String)
  | setMember (peerId : String) (info : MemberInfo)
  | submitRemoveMember (nodeId : String)
  | submitAddMember (nodeId : String) (address : String)
  | logSubmitError (peerId : String)
  deriving Repr, DecidableEq

/-- A raft.PeerObservation: whether the peer was removed, and the peer id and
address carried by the observation. -/
structure PeerObservation where
  removed : Bool
  peerId : String
  peerAddress : String
  deriving Repr, DecidableEq

/-- onPeerUpdate (cluster/application.go): for a removal observation, delete the
peer from the local member map and then submit a replicated RemoveMember
(RemovePeer), logging on a failed submission; for a join observation, ignore an
empty peer id, no-op when the peer is already in the map, otherwise write the
peer into the local member map and then submit a replicated AddMember
(ReplicatePeer), logging on a failed submission.  The booleans are the error
results of the two submission helpers (true is a nil error).  The returned list
is the ordered action trace of the handler. -/
def onPeerUpdate (mm : MemberMap) (u : PeerObservation)
    (removePeerOk : Bool) (replicatePeerOk : Bool) : MemberMap × List RecAction :=
  if u.removed then
    let mmNew := mapDel u.peerId mm
    if removePeerOk then
      (mmNew, [RecAction.delMember u.peerId, RecAction.submitRemoveMember u.peerId])
    else
      (mmNew, [RecAction.delMember u.peerId, RecAction.submitRemoveMember u.peerId,
               RecAction.logSubmitError u.peerId])
  else if u.peerId.length = 0 then (mm, [])
  else
    match mapLoad u.peerId mm with
    | some _ => (mm, [])
    | none =>
      let info : MemberInfo := { nodeId := u.peerId, isLeader := false, address := u.peerAddress }
      let mmNew := mapStore u.peerId info mm
      if replicatePeerOk then
        (mmNew, [RecAction.setMember u.peerId info,
                 RecAction.submitAddMember u.peerId u.peerAddress])
      else
        (mmNew, [RecAction.setMember u.peerId info,
                 RecAction.submitAddMember u.peerId u.peerAddress,
                 RecAction.logSubmitError u.peerId])

/-- onFailedHeartbeat (cluster/application.go): always warn-log the unreachable
peer; when the elapsed time since the last successful contact exceeds 10 seconds
(elapsedNanos is the Go duration in nanoseconds, compared as seconds against 10),
call Raft.RemoveServer.  If that returns an error, return at once: no log, no
retry, no further action.  On success, delete the peer from the local member map
and then submit a replicated RemoveMember (RemovePeer); if the submission fails,
log the error and return without retrying. -/
def onFailedHeartbeat (mm : MemberMap) (peerId : String) (elapsedNanos : Nat)
    (removeServerOk : Bool) (removePeerOk : Bool) : MemberMap × List RecAction :=
  if 10000000000 < elapsedNanos then
    if removeServerOk then
      let mmNew := mapDel peerId mm
      if removePeerOk then
        (mmNew, [RecAction.warnUnreachable peerId, RecAction.removeServer peerId,
                 RecAction.delMember peerId, RecAction.submitRemoveMember peerId])
      else
        (mmNew, [RecAction.warnUnreachable peerId, RecAction.removeServer peerId,
                 RecAction.delMember peerId, RecAction.submitRemoveMember peerId,
                 RecAction.logSubmitError peerId])
    else (mm, [RecAction.warnUnreachable peerId, RecAction.removeServer peerId])
  else (mm, [RecAction.warnUnreachable peerId])

/-! ## Concrete environments and states used by the concrete theorems -/

/-- Environment of a node on which every directory creation succeeds. -/
def envOk : Env :=
  { mkdirOk := fun _ => true, hashPartition := fun i => toString i, getNode := fun _ _ => "" }

/-- Environment of a node on which directory creation fails (for instance the
directory already exists on that node's filesystem). -/
def envNoMkdir : Env :=
  { mkdirOk := fun _ => false, hashPartition := fun i => toString i, getNode := fun _ _ => "" }

/-- Same node-local allocation behavior as envOk, different getNode closure. -/
def envOkAlt : Env :=
  { mkdirOk := fun _ => true, hashPartition := fun i => toString i, getNode := fun _ _ => "x" }

/-- Topic table holding one topic t with a single partition. -/
def stT1 : TopicMap := (CreateTopic envOk [] "t" 1).1

/-- Topic table holding one topic t with three partitions. -/
def stT3 : TopicMap := (CreateTopic envOk [] "t" 3).1

/-- A member map holding the single peer n3. -/
def mm3 : MemberMap := [("n3", { nodeId := "n3", isLeader := false, address := "a3" })]

/-! ## C1 — two-run determinism of Apply -/

/-- C1 counterexample: the same single committed command sequence (one
CreateTopic of topic t with one partition) applied to two independently
initialized, empty FSM instances yields different topic tables when the two
nodes' local os.Mkdir outcomes differ: the first table contains t, the second
stays empty.  The resulting states are not byte-identical, so Apply is not a
function of the committed command sequence alone. -/
theorem c1_mkdir_breaks_determinism :
    applySeq envOk [] [WriteOp.createTopic "t" 1]
      = [("t", { name := "t", partitions := [{ num := 0, topicName := "t", offset := 0 }],
                 hashRing := ["0"] })]
    ∧ applySeq envNoMkdir [] [WriteOp.createTopic "t" 1] = []
    ∧ containsKey "t" (applySeq envOk [] [WriteOp.createTopic "t" 1]) = true
    ∧ containsKey "t" (applySeq envNoMkdir [] [WriteOp.createTopic "t" 1]) = false := by
  decide

/-- C1 (amended): applying the same ordered command sequence to two
independently initialized FSM instances yields identical topic tables provided
the two nodes' local storage-directory allocation outcomes (os.Mkdir) and the
partition-hash library function agree; the FSM state of this source holds no
membership map, so only the topic table is at stake. -/
theorem c1_applySeq_deterministic_given_alloc (e1 e2 : Env)
    (hmk : ∀ s, e1.mkdirOk s = e2.mkdirOk s)
    (hh : ∀ i, e1.hashPartition i = e2.hashPartition i)
    (ops : List WriteOp) : applySeq e1 [] ops = applySeq e2 [] ops := by
  obtain ⟨m1, h1, g1⟩ := e1
  obtain ⟨m2, h2, g2⟩ := e2
  have hm : m1 = m2 := funext hmk
  have hhp : h1 = h2 := funext hh
  subst hm
  subst hhp
  have hsw : ∀ (st : TopicMap) (op : WriteOp),
      applySwitch ⟨m1, h1, g1⟩ st op = applySwitch ⟨m1, h1, g2⟩ st op := by
    intro st op
    cases op <;> rfl
  suffices hgen : ∀ st : TopicMap,
      applySeq ⟨m1, h1, g1⟩ st ops = applySeq ⟨m1, h1, g2⟩ st ops from hgen []
  induction ops with
  | nil => intro st; rfl
  | cons op rest ih =>
    intro st
    simp only [applySeq, List.foldl_cons]
    rw [hsw st op]
    exact ih (applySwitch ⟨m1, h1, g2⟩ st op)

/-- C1 witness: two concrete environments whose allocation outcomes agree (they
differ only in the getNode closure) produce the same table on a concrete
command sequence. -/
theorem c1_applySeq_deterministic_given_alloc_witness :
    applySeq envOk [] [WriteOp.createTopic "t" 2]
      = applySeq envOkAlt [] [WriteOp.createTopic "t" 2] :=
  c1_applySeq_deterministic_given_alloc envOk envOkAlt (fun _ => rfl) (fun _ => rfl) _

/-! ## C2 — Publish apply -/

/-- C2: evaluating the code at the failing inputs.  On a table holding topic t
with one partition at offset 0, the Apply dispatch of a committed Publish entry
leaves the table unchanged (the Write_Publish case only breaks and never calls
Publish), the Publish method itself returns the table unchanged with a nil
result (no offset is incremented, no message appended), and a Publish for a
missing topic also returns nil rather than an UnknownTopic error. -/
theorem c2_publish_apply_is_noop :
    applySwitch envOk stT1 (WriteOp.publish "t" [("k", "v")]) = stT1
    ∧ Publish envOk stT1 "t" [("k", "v")] = (stT1, none)
    ∧ Publish envOk stT1 "missing" [("k", "v")] = (stT1, none) := by
  refine ⟨rfl, rfl, rfl⟩

/-! ## C3 — Snapshot/Restore round-trip -/

/-- C3: evaluating the code at the failing input.  For the state holding topic t
with three partitions, Snapshot produces no data (the source returns nil, nil)
and Restore on a fresh, empty instance leaves it empty: the original table
contains t, the round-tripped instance does not. -/
theorem c3_snapshot_restore_loses_topics :
    Snapshot stT3 = none
    ∧ Restore [] (Snapshot stT3) = []
    ∧ containsKey "t" stT3 = true
    ∧ containsKey "t" (Restore [] (Snapshot stT3)) = false := by
  decide

/-! ## C4 — failed-heartbeat remediation -/

/-- C4 counterexample: peer n3, last successful contact 11 seconds old.  When
the configuration-removal call fails, the handler output is exactly the warn log
and the single failed RemoveServer attempt: no retry, no error log, no
replicated RemoveMember, member map unchanged — the event is dropped.  When the
configuration removal succeeds and the replicated RemoveMember submission fails,
the trace holds exactly one RemoveServer call and one RemoveMember submission:
the handler never retries either step. -/
theorem c4_failed_steps_dropped_without_retry :
    onFailedHeartbeat mm3 "n3" 11000000000 false true
      = (mm3, [RecAction.warnUnreachable "n3", RecAction.removeServer "n3"])
    ∧ (onFailedHeartbeat mm3 "n3" 11000000000 true false).2.count
        (RecAction.submitRemoveMember "n3") = 1
    ∧ (onFailedHeartbeat mm3 "n3" 11000000000 true false).2.count
        (RecAction.removeServer "n3") = 1 := by
  decide

/-- C4 (amended): for every failed-heartbeat observation whose last successful
contact is more than 10 seconds old, the handler asks the consensus engine to
remove the peer from its configuration; on success it deletes the peer from the
local member map and submits one replicated RemoveMember; if the configuration
removal fails it returns at once with no retry and no error log, and if the
RemoveMember submission fails it logs the error and returns with no retry — the
handler itself never re-attempts a failed step. -/
theorem c4_failed_heartbeat_behavior (mm : MemberMap) (p : String) (ns : Nat)
    (rsOk rpOk : Bool) (h : 10000000000 < ns) :
    (rsOk = true → rpOk = true →
      onFailedHeartbeat mm p ns rsOk rpOk
        = (mapDel p mm,
           [RecAction.warnUnreachable p, RecAction.removeServer p, RecAction.delMember p,
            RecAction.submitRemoveMember p]))
    ∧ (rsOk = true → rpOk = false →
      onFailedHeartbeat mm p ns rsOk rpOk
        = (mapDel p mm,
           [RecAction.warnUnreachable p, RecAction.removeServer p, RecAction.delMember p,
            RecAction.submitRemoveMember p, RecAction.logSubmitError p]))
    ∧ (rsOk = false →
      onFailedHeartbeat mm p ns rsOk rpOk
        = (mm, [RecAction.warnUnreachable p, RecAction.removeServer p])) := by
  refine ⟨?_, ?_, ?_⟩
  · rintro rfl rfl
    simp [onFailedHeartbeat, h]
  · rintro rfl rfl
    simp [onFailedHeartbeat, h]
  · rintro rfl
    simp [onFailedHeartbeat, h]

/-- C4 witness: the successful path at a concrete observation 11 seconds stale. -/
theorem c4_failed_heartbeat_behavior_witness :
    onFailedHeartbeat mm3 "n3" 11000000000 true true
      = (mapDel "n3" mm3,
         [RecAction.warnUnreachable "n3", RecAction.removeServer "n3",
          RecAction.delMember "n3", RecAction.submitRemoveMember "n3"]) :=
  (c4_failed_heartbeat_behavior mm3 "n3" 11000000000 true true (by decide)).1 rfl rfl

/-! ## C5 — local map update versus commit confirmation -/

/-- C5: evaluating the reconciler at concrete observations.  For a fresh peer
n2, the handler writes the member-map entry as its first action and only then
submits the replicated AddMember, and the map it returns already contains n2 at
the moment of submission; for a removal of present peer n4, the local delete
likewise precedes the replicated RemoveMember submission.  Local state is
mutated before — not after — commit confirmation of the replicated command. -/
theorem c5_local_update_precedes_commit :
    onPeerUpdate [] { removed := false, peerId := "n2", peerAddress := "a2" } true true
      = ([("n2", { nodeId := "n2", isLeader := false, address := "a2" })],
         [RecAction.setMember "n2" { nodeId := "n2", isLeader := false, address := "a2" },
          RecAction.submitAddMember "n2" "a2"])
    ∧ onPeerUpdate [("n4", { nodeId := "n4", isLeader := false, address := "a4" })]
        { removed := true, peerId := "n4", peerAddress := "a4" } true true
      = ([], [RecAction.delMember "n4", RecAction.submitRemoveMember "n4"]) := by
  decide

/-! ## C6 — idempotent membership updates on the member map -/

/-- C6: handling a join observation for node x twice in sequence leaves the
member map with exactly one entry for x — the second handling hits the
already-present branch and is a no-op, not an error — and handling a removal
observation for an absent node y leaves the map unchanged (the delete of an
absent key is a no-op, not an error).  The hypotheses state that x has a
nonempty id (empty ids are filtered before the map is touched) and the hash-map
key-uniqueness invariant (at most one entry per key, and none for the absent y). -/
theorem c6_membership_updates_idempotent (mm : MemberMap) (x y addrA addrB : String)
    (r1 r2 rm : Bool) (hx : x.length ≠ 0)
    (hcx : countKey x mm ≤ 1) (hy : containsKey y mm = false) :
    countKey x ((onPeerUpdate ((onPeerUpdate mm
        { removed := false, peerId := x, peerAddress := addrA } true r1).1)
        { removed := false, peerId := x, peerAddress := addrB } true r2).1) = 1
    ∧ (onPeerUpdate mm { removed := true, peerId := y, peerAddress := "" } rm true).1 = mm := by
  constructor
  · cases hml : mapLoad x mm with
    | some v =>
      have hstep : (onPeerUpdate mm
          { removed := false, peerId := x, peerAddress := addrA } true r1).1 = mm := by
        simp [onPeerUpdate, hx, hml]
      rw [hstep]
      have hstep2 : (onPeerUpdate mm
          { removed := false, peerId := x, peerAddress := addrB } true r2).1 = mm := by
        simp [onPeerUpdate, hx, hml]
      rw [hstep2]
      have hne : countKey x mm ≠ 0 := by
        intro h0
        have hcf : containsKey x mm = false := (countKey_eq_zero_iff x mm).mp h0
        rw [(mapLoad_eq_none_iff x mm).mpr hcf] at hml
        cases hml
      omega
    | none =>
      have hcf : containsKey x mm = false := (mapLoad_eq_none_iff x mm).mp hml
      have hstep : (onPeerUpdate mm
          { removed := false, peerId := x, peerAddress := addrA } true r1).1
          = mapStore x { nodeId := x, isLeader := false, address := addrA } mm := by
        cases r1 <;> simp [onPeerUpdate, hx, hml]
      rw [hstep]
      have hload : mapLoad x (mapStore x { nodeId := x, isLeader := false, address := addrA } mm)
          = some { nodeId := x, isLeader := false, address := addrA } :=
        mapLoad_mapStore_self x _ mm
      have hstep2 : (onPeerUpdate
          (mapStore x { nodeId := x, isLeader := false, address := addrA } mm)
          { removed := false, peerId := x, peerAddress := addrB } true r2).1
          = mapStore x { nodeId := x, isLeader := false, address := addrA } mm := by
        simp [onPeerUpdate, hx, hload]
      rw [hstep2]
      rw [countKey_mapStore_absent x _ mm hcf]
      rw [(countKey_eq_zero_iff x mm).mpr hcf]
  · have hd := mapDel_eq_self y mm hy
    cases rm <;> simp [onPeerUpdate, hd]

/-- C6 witness: two join observations for node x on the empty map leave exactly
one entry for x, and a removal observation for the absent node y leaves the
empty map unchanged. -/
theorem c6_membership_updates_idempotent_witness :
    countKey "x" ((onPeerUpdate ((onPeerUpdate []
        { removed := false, peerId := "x", peerAddress := "a" } true true).1)
        { removed := false, peerId := "x", peerAddress := "b" } true true).1) = 1
    ∧ (onPeerUpdate [] { removed := true, peerId := "y", peerAddress := "" } true true).1 = [] :=
  c6_membership_updates_idempotent [] "x" "y" "a" "b" true true true
    (by decide) (by decide) (by decide)

/-! ## C7 — CreateTopic behavior -/

/-- C7 counterexample: a second CreateTopic of the already existing topic t is
rejected with the table unchanged, but the result is nil — exactly the result of
the successful first submission — so the rejection carries no reportable error;
a CreateTopic whose storage directory cannot be allocated likewise returns nil
with the table unchanged. -/
theorem c7_rejection_carries_no_error :
    CreateTopic envOk stT3 "t" 3 = (stT3, none)
    ∧ (CreateTopic envOk [] "t" 3).2 = none
    ∧ CreateTopic envNoMkdir [] "t" 3 = ([], none) := by
  decide

/-- C7 (amended): a CreateTopic apply whose topic already exists, or whose
storage directory cannot be allocated, is silently rejected — the topic table is
unchanged and the returned result is nil, indistinguishable from success, with
no error value produced; otherwise exactly partitionCount partition records
numbered from 0 with offsets at zero are created, the hash ring is built from
the hashed partition identifiers, and the topic is appended to the table. -/
theorem c7_createTopic_behavior (env : Env) (topics : TopicMap) (t : String) (n : Nat) :
    (containsKey t topics = true → CreateTopic env topics t n = (topics, none))
    ∧ (containsKey t topics = false → env.mkdirOk t = false →
        CreateTopic env topics t n = (topics, none))
    ∧ (containsKey t topics = false → env.mkdirOk t = true →
        CreateTopic env topics t n
          = (topics ++ [(t,
              { name := t,
                partitions := (List.range n).map (fun i => CreatePartition i t),
                hashRing := (List.range n).map env.hashPartition })], none)) := by
  refine ⟨?_, ?_, ?_⟩
  · intro hc
    cases hml : mapLoad t topics with
    | none =>
      rw [mapLoad_eq_none_iff] at hml
      rw [hml] at hc
      cases hc
    | some v => simp [CreateTopic, hml]
  · intro hc hmk
    have hml : mapLoad t topics = none := (mapLoad_eq_none_iff t topics).mpr hc
    simp [CreateTopic, hml, hmk]
  · intro hc hmk
    have hml : mapLoad t topics = none := (mapLoad_eq_none_iff t topics).mpr hc
    simp [CreateTopic, hml, hmk, mapStore, hc]

/-- C7 witness: creating topic t with two partitions on the empty table. -/
theorem c7_createTopic_behavior_witness :
    CreateTopic envOk [] "t" 2
      = ([("t", { name := "t",
                  partitions := (List.range 2).map (fun i => CreatePartition i "t"),
                  hashRing := (List.range 2).map envOk.hashPartition })], none) :=
  (c7_createTopic_behavior envOk [] "t" 2).2.2 rfl rfl

/-! ## C8 — decode failure handling in Apply -/

/-- C8: on a log entry whose decoding succeeds, Apply panics on the nil error
interface (len(err.Error()) is evaluated with err nil) before the dispatch
switch is reached — it does not proceed to dispatch the decoded command; on a
decoding failure with a nonempty error message it calls log.Fatal, a fatal,
non-recoverable stop. -/
theorem c8_apply_decode_behavior (env : Env) (topics : TopicMap) :
    (∀ op : WriteOp, Apply env topics (Except.ok op) = ApplyOutcome.nilErrorPanic)
    ∧ (∀ msg : GoErr, msg.length ≠ 0 →
        Apply env topics (Except.error msg) = ApplyOutcome.fatalLog) := by
  constructor
  · intro op
    rfl
  · intro msg hm
    simp [Apply, hm]

/-- C8 witness: a concrete successfully decoded entry panics, a concrete failed
decode is fatal. -/
theorem c8_apply_decode_behavior_witness :
    Apply envOk [] (Except.ok WriteOp.consume) = ApplyOutcome.nilErrorPanic
    ∧ Apply envOk [] (Except.error "unexpected EOF") = ApplyOutcome.fatalLog :=
  ⟨(c8_apply_decode_behavior envOk []).1 WriteOp.consume,
   (c8_apply_decode_behavior envOk []).2 "unexpected EOF" (by decide)⟩

/-! ## C9 — partition-to-storage-node assignment -/

/-- C9: CreatePartition computes its partition record from the partition number
and topic name alone — the FSM state carries no membership table it could
consult — and the server list its (dead) storage-node assignment code draws from
is the externally hardcoded memcacheServers literal, not replicated membership. -/
theorem c9_assignment_hardcoded_not_membership :
    (∀ (n : Nat) (t : String),
      CreatePartition n t = { num := n, topicName := t, offset := 0 })
    ∧ memcacheServers
        = ["192.168.0.246:11212", "192.168.0.247:11212", "192.168.0.249:11212"] :=
  ⟨fun _ _ => rfl, rfl⟩

/-! ## C10 — empty peer id on a join observation -/

/-- C10: a peer-joined observation whose peer id is the empty string returns
before touching anything: the member map is unchanged and the action trace is
empty — no local write, no replicated AddMember submission, no log. -/
theorem c10_empty_peer_id_ignored (mm : MemberMap) (addr : String) (rOk sOk : Bool) :
    onPeerUpdate mm { removed := false, peerId := "", peerAddress := addr } rOk sOk
      = (mm, []) := rfl

end Jet
